import Mathlib

/-!
Zipkin HTTP span ingestion (`cmd/collector/app/zipkin/http_handler.go`)

A shallow embedding of `deserializeThrift` and `APIHandler.saveSpans`.

* Go `(value, error)` results are pairs `α × Option Err` where the value is
  still meaningful next to an error (decoders return a `nil` slice), and
  `Except Err α` where the value is discarded on error.
* The Thrift transport is a mutable object in Go; here every operation takes the
  transport state and returns the new one, also when it fails.
* Calls to collaborators (the two decoders, `SubmitZipkinBatch`) are recorded in
  an event trace returned next to the HTTP response.
-/

namespace Zipkin

/-- One octet of a request body. -/
abbrev Byte := UInt8

/-- A Go `error`, identified by its message (what `%v` prints). -/
abbrev Err := String

/-! ## Thrift protocol -/

/-- The operations `deserializeThrift` performs on its protocol object.
`T` is the state of the transport, `Span` stands for `zipkincore.Span`.
`NewTransport b` is `NewTMemoryBuffer` + `Write(b)` + `NewTBinaryProtocolTransport`,
`SpanRead` is `(*zipkincore.Span).Read`, generated code outside this file. -/
structure TProtocol (T Span : Type) where
  NewTransport : List Byte → T
  ReadListBegin : T → Except Err (Byte × Int) × T
  SpanRead : T → Except Err Span × T

/-- The loop `for i := 0; i < size; i++` of `deserializeThrift`; the first
argument is the number of iterations still to run, `spans` the slice built so
far. A failing `Read` returns `nil` and the error at once. -/
def readSpans {T Span : Type} (P : TProtocol T Span) :
    Nat → T → List Span → (List Span × Option Err) × T
  | 0, t, spans => ((spans, none), t)
  | n + 1, t, spans =>
    match P.SpanRead t with
    | (.error err, t1) => (([], some err), t1)
    | (.ok zs, t1) => readSpans P n t1 (spans ++ [zs])

/-- The body of `deserializeThrift`, returning the final transport state
next to the Go results `(spans, err)`. -/
def deserializeThriftRun {T Span : Type} (P : TProtocol T Span) (b : List Byte) :
    (List Span × Option Err) × T :=
  let transport := P.NewTransport b
  match P.ReadListBegin transport with
  | (.error err, t) => (([], some err), t)
  | (.ok (_, size), t) => readSpans P size.toNat t []

/-- The Go function `deserializeThrift(b) ([]*zipkincore.Span, error)`. -/
def deserializeThrift {T Span : Type} (P : TProtocol T Span) (b : List Byte) :
    List Span × Option Err :=
  (deserializeThriftRun P b).1

/-! ### The binary protocol over a memory buffer

`thrift.TMemoryBuffer` and `thrift.TBinaryProtocol` belong to the Apache Thrift
library; the state of the transport is the list of bytes not yet consumed. -/

/-- The method `TBinaryProtocol.ReadByte` on a memory buffer. -/
def readByte : List Byte → Except Err Byte × List Byte
  | [] => (.error "EOF", [])
  | b :: rest => (.ok b, rest)

/-- The signed 32-bit value of four big-endian bytes. -/
def int32OfBytes (b0 b1 b2 b3 : Byte) : Int :=
  let u : Nat := b0.toNat * 2 ^ 24 + b1.toNat * 2 ^ 16 + b2.toNat * 2 ^ 8 + b3.toNat
  if u < 2 ^ 31 then (u : Int) else (u : Int) - 2 ^ 32

/-- The method `TBinaryProtocol.ReadI32` on a memory buffer: `io.ReadFull` of four bytes,
`EOF` when nothing is left, `unexpected EOF` when fewer than four are. -/
def readI32 : List Byte → Except Err Int × List Byte
  | b0 :: b1 :: b2 :: b3 :: rest => (.ok (int32OfBytes b0 b1 b2 b3), rest)
  | [] => (.error "EOF", [])
  | _ => (.error "unexpected EOF", [])

/-- The method `TBinaryProtocol.ReadListBegin`: element type byte, then the declared size
as an i32; a negative size is refused. -/
def binaryReadListBegin (buf : List Byte) : Except Err (Byte × Int) × List Byte :=
  match readByte buf with
  | (.error e, buf1) => (.error e, buf1)
  | (.ok elemType, buf1) =>
    match readI32 buf1 with
    | (.error e, buf2) => (.error e, buf2)
    | (.ok size32, buf2) =>
      if size32 < 0 then (.error "Invalid data length", buf2)
      else (.ok (elemType, size32), buf2)

/-- The protocol `deserializeThrift` builds: binary protocol over a memory
buffer holding `b`; the record reader `spanRead` is a parameter. -/
def binaryProtocol {Span : Type} (spanRead : List Byte → Except Err Span × List Byte) :
    TProtocol (List Byte) Span where
  NewTransport := fun b => b
  ReadListBegin := binaryReadListBegin
  SpanRead := spanRead

/-- A protocol instrumented with a counter of `SpanRead` invocations. -/
def counted {T Span : Type} (P : TProtocol T Span) : TProtocol (T × Nat) Span where
  NewTransport := fun b => (P.NewTransport b, 0)
  ReadListBegin := fun s => ((P.ReadListBegin s.1).1, ((P.ReadListBegin s.1).2, s.2))
  SpanRead := fun s => ((P.SpanRead s.1).1, ((P.SpanRead s.1).2, s.2 + 1))

/-- The bytes of a binary list header: element type, then `n` as a big-endian i32. -/
def listHeader (elemType : Byte) (n : Nat) : List Byte :=
  [elemType, UInt8.ofNat (n / 2 ^ 24 % 256), UInt8.ofNat (n / 2 ^ 16 % 256),
    UInt8.ofNat (n / 2 ^ 8 % 256), UInt8.ofNat (n % 256)]

/-- The record `r` is a well-formed serialization of span `s` for the reader
`spanRead`: whatever follows it, reading yields `s` and consumes exactly `r`. -/
def Encodes {Span : Type} (spanRead : List Byte → Except Err Span × List Byte)
    (r : List Byte) (s : Span) : Prop :=
  ∀ rest : List Byte, spanRead (r ++ rest) = (.ok s, rest)

/-- Starting in transport state `t`, the next reads succeed and yield `spans`
in this order, leaving the transport in state `t1`. -/
inductive ReadsOk {T Span : Type} (P : TProtocol T Span) : T → List Span → T → Prop
  | nil (t : T) : ReadsOk P t [] t
  | cons {t t1 t2 : T} {s : Span} {ss : List Span} :
      P.SpanRead t = (.ok s, t1) → ReadsOk P t1 ss t2 → ReadsOk P t (s :: ss) t2

/-- An example record reader: a record is a byte `1` followed by a payload
byte, the span is the payload; anything else is rejected. -/
def demoSpanRead : List Byte → Except Err Nat × List Byte
  | 1 :: v :: rest => (.ok v.toNat, rest)
  | [] => (.error "EOF", [])
  | _ :: rest => (.error "bad record", rest)

/-! ## The HTTP handler -/

/-- An `io.Reader` delivering finitely many bytes: `data` is what it yields,
`err` the error it then reports instead of `io.EOF` (`none` for a clean end). -/
structure Reader where
  data : List Byte
  err : Option Err
deriving DecidableEq, Repr

/-- The Go call `ioutil.ReadAll(r)`: all bytes read, and the error if reading failed. -/
def ReadAll (r : Reader) : List Byte × Option Err := (r.data, r.err)

/-- The part of `*http.Request` the handler reads: `Header k` is
`r.Header.Get(k)` (the empty string when the header is absent). -/
structure Request where
  Header : String → String
  Body : Reader

/-- What the handler leaves in the `http.ResponseWriter`. -/
structure Response where
  status : Nat
  body : String
deriving DecidableEq, Repr

/-- Calls made by the handler to its collaborators, in order. -/
inductive Event (Span : Type) where
  | deserializeThrift (b : List Byte)
  | DeserializeJSON (b : List Byte)
  | SubmitZipkinBatch (spans : List Span)
deriving DecidableEq, Repr

/-- Whether an event is a call of one of the two span decoders. -/
def Event.isDecode {Span : Type} : Event Span → Bool
  | .deserializeThrift _ => true
  | .DeserializeJSON _ => true
  | .SubmitZipkinBatch _ => false

/-- Whether an event is a call of `SubmitZipkinBatch`. -/
def Event.isSubmit {Span : Type} : Event Span → Bool
  | .SubmitZipkinBatch _ => true
  | _ => false

/-- Everything `saveSpans` uses that is defined outside `http_handler.go`:
`gzipNewReader` is `gzip.NewReader`, `proto` the Thrift protocol with the
generated span reader, `DeserializeJSON` the JSON decoder of the package,
`SubmitZipkinBatch` the downstream handler (its first result is ignored by the
caller), `fmtUnableToReadBody err` is
`fmt.Sprintf(app.UnableToReadBodyErrFormat, err)`. -/
structure Env (T Span : Type) where
  gzipNewReader : Reader → Except Err Reader
  proto : TProtocol T Span
  DeserializeJSON : List Byte → List Span × Option Err
  SubmitZipkinBatch : List Span → Option Err
  fmtUnableToReadBody : Err → String

/-- The Go call `strings.Contains(s, substr)`. -/
def stringsContains (s substr : String) : Bool :=
  s.data.tails.any (fun t => substr.data.isPrefixOf t)

/-- The Go call `http.Error(w, msg, code)`: status `code`, body `msg` and a newline. -/
def httpError (msg : String) (code : Nat) : Response :=
  { status := code, body := msg ++ "\n" }

def StatusAccepted : Nat := 202
def StatusBadRequest : Nat := 400
def StatusInternalServerError : Nat := 500

/-- Lines 82-95 of `saveSpans`: what happens once a decoder has returned
`(tSpans, err)`; `log` holds the calls made so far. -/
def submitSpans {T Span : Type} (env : Env T Span) (log : List (Event Span))
    (decoded : List Span × Option Err) : Response × List (Event Span) :=
  match decoded with
  | (_, some err) => (httpError (env.fmtUnableToReadBody err) StatusBadRequest, log)
  | (tSpans, none) =>
    if tSpans.length > 0 then
      match env.SubmitZipkinBatch tSpans with
      | some err =>
        (httpError ("Cannot submit Zipkin batch: " ++ err) StatusInternalServerError,
          log ++ [.SubmitZipkinBatch tSpans])
      | none => ({ status := StatusAccepted, body := "" }, log ++ [.SubmitZipkinBatch tSpans])
    else ({ status := StatusAccepted, body := "" }, log)

/-- Lines 72-95 of `saveSpans`: select the decoder from the `Content-Type`
header, decode `bodyBytes`, submit. -/
def decodeAndSubmit {T Span : Type} (env : Env T Span) (r : Request)
    (bodyBytes : List Byte) : Response × List (Event Span) :=
  let contentType := r.Header "Content-Type"
  if contentType = "application/x-thrift" then
    submitSpans env [.deserializeThrift bodyBytes] (deserializeThrift env.proto bodyBytes)
  else if contentType = "application/json" then
    submitSpans env [.DeserializeJSON bodyBytes] (env.DeserializeJSON bodyBytes)
  else (httpError "Unsupported Content-Type" StatusBadRequest, [])

/-- Lines 66-95 of `saveSpans`: read the whole body from `bRead`, then decode
and submit. -/
def readAndDecode {T Span : Type} (env : Env T Span) (r : Request) (bRead : Reader) :
    Response × List (Event Span) :=
  match ReadAll bRead with
  | (_, some err) => (httpError (env.fmtUnableToReadBody err) StatusInternalServerError, [])
  | (bodyBytes, none) => decodeAndSubmit env r bodyBytes

/-- The handler `(*APIHandler).saveSpans`: the response written and the calls
made to the decoders and to `SubmitZipkinBatch`. -/
def saveSpans {T Span : Type} (env : Env T Span) (r : Request) :
    Response × List (Event Span) :=
  if stringsContains (r.Header "Content-Encoding") "gzip" then
    match env.gzipNewReader r.Body with
    | .error err => (httpError (env.fmtUnableToReadBody err) StatusBadRequest, [])
    | .ok gz => readAndDecode env r gz
  else readAndDecode env r r.Body

/-- The body of `r` is read successfully and consists of `bodyBytes`: through
`gzip.NewReader` when `Content-Encoding` declares gzip, directly otherwise. -/
def BodyReadsTo {T Span : Type} (env : Env T Span) (r : Request) (bodyBytes : List Byte) :
    Prop :=
  if stringsContains (r.Header "Content-Encoding") "gzip" then
    ∃ gz, env.gzipNewReader r.Body = .ok gz ∧ ReadAll gz = (bodyBytes, none)
  else ReadAll r.Body = (bodyBytes, none)

/-- The call `ioutil.ReadAll` of line 66 is reached and fails. -/
def ReadAllFails {T Span : Type} (env : Env T Span) (r : Request) : Prop :=
  if stringsContains (r.Header "Content-Encoding") "gzip" then
    ∃ gz, env.gzipNewReader r.Body = .ok gz ∧ (ReadAll gz).2 ≠ none
  else (ReadAll r.Body).2 ≠ none

/-- The `Content-Type` of `r` is one of the two recognized values and the
decoder it selects returns `res` on `bodyBytes`. -/
def Decoded {T Span : Type} (env : Env T Span) (r : Request) (bodyBytes : List Byte)
    (res : List Span × Option Err) : Prop :=
  (r.Header "Content-Type" = "application/x-thrift"
      ∧ deserializeThrift env.proto bodyBytes = res)
    ∨ (r.Header "Content-Type" = "application/json" ∧ env.DeserializeJSON bodyBytes = res)

/-! ### A gzip collaborator for closed examples

`compress/gzip` is a parameter of the handler (`Env.gzipNewReader`). For
concrete requests the following reader is used: RFC 1952 members without
optional header fields whose DEFLATE data consists of stored blocks. The
header is parsed by `NewReader`, the data lazily while the reader is drained,
as in the library; streams outside this fragment are reported with an error
that says so. -/

/-- The value of a little-endian byte string. -/
def leNat : List Byte → Nat
  | [] => 0
  | b :: bs => b.toNat + 256 * leNat bs

/-- One bit step of the reflected CRC-32 (polynomial `0xEDB88320`). -/
def crc32Step (c : Nat) : Nat :=
  if c % 2 = 1 then (c / 2) ^^^ 0xEDB88320 else c / 2

/-- CRC-32 (IEEE) of a byte string. -/
def crc32 (bs : List Byte) : Nat :=
  (bs.foldl (fun c b => crc32Step^[8] (c ^^^ b.toNat)) 0xFFFFFFFF) ^^^ 0xFFFFFFFF

/-- The error of an `io.ReadFull` that got some but not all of its bytes
(`noEOF` in the library): the error of the reader itself, else `unexpected EOF`. -/
def shortRead (uerr : Option Err) : Err := uerr.getD "unexpected EOF"

/-- Inflate a DEFLATE stream made of stored blocks. Arguments: fuel, number of
input bytes consumed so far, remaining input, error of the underlying reader,
output so far. Result: the output, and the input left after the final block or
the error that stopped decompression. -/
def inflateStored : Nat → Nat → List Byte → Option Err → List Byte →
    List Byte × Except Err (List Byte)
  | 0, _, _, uerr, out => (out, .error (shortRead uerr))
  | _ + 1, _, [], uerr, out => (out, .error (shortRead uerr))
  | fuel + 1, off, hd :: inp, uerr, out =>
    let final := hd.toNat % 2 = 1
    let typ := hd.toNat / 2 % 4
    if typ = 0 then
      if inp.length < 4 then (out, .error (shortRead uerr))
      else
        let n := leNat (inp.take 2)
        let nn := leNat ((inp.drop 2).take 2)
        if nn ≠ 65535 - n then
          (out, .error ("flate: corrupt input before offset " ++ toString (off + 5)))
        else
          let inp1 := inp.drop 4
          if inp1.length < n then (out ++ inp1, .error (shortRead uerr))
          else if final then (out ++ inp1.take n, .ok (inp1.drop n))
          else inflateStored fuel (off + 5 + n) (inp1.drop n) uerr (out ++ inp1.take n)
    else if typ = 3 then
      (out, .error ("flate: corrupt input before offset " ++ toString (off + 1)))
    else (out, .error "flate: compressed blocks are outside the modelled fragment")

/-- The member header: ten bytes, magic `1f 8b`, method 8 (deflate). Returns
the input after the header. -/
def gzipReadHeader (inp : List Byte) (uerr : Option Err) : Except Err (List Byte) :=
  if inp.length < 10 then
    .error (if inp = [] then uerr.getD "EOF" else shortRead uerr)
  else if inp.take 3 ≠ [0x1f, 0x8b, 8] then .error "gzip: invalid header"
  else if (inp.getD 3 0).toNat / 2 % 16 ≠ 0 then
    .error "gzip: optional header fields are outside the modelled fragment"
  else .ok (inp.drop 10)

/-- Drain a gzip reader positioned after a member header: inflate the member,
check the trailer (CRC-32 and length), then continue with the next member or
stop at a clean end of input. Result: what `ReadAll` returns. -/
def gzipDrain : Nat → List Byte → Option Err → List Byte → List Byte × Option Err
  | 0, _, uerr, out => (out, some (shortRead uerr))
  | fuel + 1, inp, uerr, out =>
    match inflateStored inp.length 0 inp uerr [] with
    | (member, .error e) => (out ++ member, some e)
    | (member, .ok rest) =>
      if rest.length < 8 then (out ++ member, some (shortRead uerr))
      else if leNat (rest.take 4) ≠ crc32 member ∨
          leNat ((rest.drop 4).take 4) ≠ member.length % 2 ^ 32 then
        (out ++ member, some "gzip: invalid checksum")
      else if rest.drop 8 = [] ∧ uerr = none then (out ++ member, none)
      else
        match gzipReadHeader (rest.drop 8) uerr with
        | .error e => (out ++ member, some e)
        | .ok rest1 => gzipDrain fuel rest1 uerr (out ++ member)

/-- The call `gzip.NewReader(r)` of the example collaborator: fails when the
first member header is defective, otherwise returns the decompressing reader. -/
def gzipStoredNewReader (r : Reader) : Except Err Reader :=
  match gzipReadHeader r.data r.err with
  | .error e => .error e
  | .ok rest =>
    let res := gzipDrain rest.length rest r.err []
    .ok { data := res.1, err := res.2 }

/-- The gzip stream with one stored block holding `p` (`p` shorter than 65536 bytes). -/
def gzipStore (p : List Byte) : List Byte :=
  let le (k n : Nat) : List Byte := (List.range k).map (fun i => UInt8.ofNat (n / 256 ^ i % 256))
  [0x1f, 0x8b, 8, 0, 0, 0, 0, 0, 0, 0xff] ++ [1] ++ le 2 p.length ++ le 2 (65535 - p.length)
    ++ p ++ le 4 (crc32 p) ++ le 4 p.length

/-- An example environment: binary Thrift protocol with the example record
reader, the example gzip reader, a JSON decoder that rejects everything, a
downstream handler that refuses batches of more than two spans. -/
def demoEnv : Env (List Byte) Nat where
  gzipNewReader := gzipStoredNewReader
  proto := binaryProtocol demoSpanRead
  DeserializeJSON := fun _ => ([], some "invalid JSON")
  SubmitZipkinBatch := fun spans => if spans.length > 2 then some "queue full" else none
  fmtUnableToReadBody := fun err => "Unable to process request body: " ++ err

/-- A request with the given `Content-Encoding`, `Content-Type` and body bytes. -/
def mkRequest (contentEncoding contentType : String) (body : Reader) : Request where
  Header := fun k =>
    if k = "Content-Encoding" then contentEncoding
    else if k = "Content-Type" then contentType else ""
  Body := body

end Zipkin


namespace Zipkin

/-! ## Lemmas on the decoding loop -/

theorem readSpans_of_readsOk {T Span : Type} (P : TProtocol T Span) {t t1 : T}
    {ss : List Span} (h : ReadsOk P t ss t1) :
    ∀ (n : Nat) (acc : List Span),
      readSpans P (ss.length + n) t acc = readSpans P n t1 (acc ++ ss) := by
  induction h with
  | nil t => intro n acc; simp
  | @cons t t1 t2 s ss hs _ ih =>
    intro n acc
    have hlen : (s :: ss).length + n = (ss.length + n) + 1 := by
      simp only [List.length_cons]; omega
    rw [hlen, readSpans, hs]
    simp only
    rw [ih n (acc ++ [s])]
    simp

theorem readSpans_fail {T Span : Type} (P : TProtocol T Span) {t t1 t2 : T}
    {ss : List Span} {e : Err} (h : ReadsOk P t ss t1)
    (hfail : P.SpanRead t1 = (.error e, t2)) (n : Nat) (hn : ss.length < n)
    (acc : List Span) :
    readSpans P n t acc = (([], some e), t2) := by
  obtain ⟨m, rfl⟩ : ∃ m, n = ss.length + (m + 1) := ⟨n - ss.length - 1, by omega⟩
  rw [readSpans_of_readsOk P h, readSpans, hfail]

theorem readSpans_all {T Span : Type} (P : TProtocol T Span) {t t1 : T}
    {ss : List Span} (h : ReadsOk P t ss t1) (acc : List Span) :
    readSpans P ss.length t acc = ((acc ++ ss, none), t1) := by
  have := readSpans_of_readsOk P h 0 acc
  simpa [readSpans] using this

theorem readsOk_counted {T Span : Type} (P : TProtocol T Span) {t t1 : T}
    {ss : List Span} (h : ReadsOk P t ss t1) :
    ∀ c : Nat, ReadsOk (counted P) (t, c) ss (t1, c + ss.length) := by
  induction h with
  | nil t => intro c; exact ReadsOk.nil _
  | @cons t t1 t2 s ss hs _ ih =>
    intro c
    refine @ReadsOk.cons _ _ _ _ (t1, c + 1) _ _ _ ?_ ?_
    · simp [counted, hs]
    · have := ih (c + 1)
      simpa [Nat.add_assoc, Nat.add_comm 1] using this

theorem binaryReadListBegin_listHeader (elemType : Byte) (n : Nat) (hn : n < 2 ^ 31)
    (rest : List Byte) :
    binaryReadListBegin (listHeader elemType n ++ rest) = (.ok (elemType, (n : Int)), rest) := by
  have hb : ∀ x : Nat, (UInt8.ofNat x).toNat = x % 256 := fun _ => rfl
  have key : (n / 2 ^ 24 % 256 % 256) * 2 ^ 24 + (n / 2 ^ 16 % 256 % 256) * 2 ^ 16
      + (n / 2 ^ 8 % 256 % 256) * 2 ^ 8 + n % 256 % 256 = n := by
    norm_num at hn ⊢
    omega
  simp only [binaryReadListBegin, listHeader, readByte, readI32, int32OfBytes, hb,
    List.cons_append, List.nil_append, key]
  rw [if_pos hn, if_neg (by omega)]

theorem readsOk_encoded {Span : Type} (spanRead : List Byte → Except Err Span × List Byte)
    (rs : List (List Byte × Span)) (h : ∀ p ∈ rs, Encodes spanRead p.1 p.2)
    (rest : List Byte) :
    ReadsOk (binaryProtocol spanRead) ((rs.map Prod.fst).flatten ++ rest)
      (rs.map Prod.snd) rest := by
  induction rs with
  | nil => exact ReadsOk.nil _
  | cons p rs ih =>
    have hp := h p (List.mem_cons_self _ _)
    have ih1 := ih (fun q hq => h q (List.mem_cons_of_mem _ hq))
    refine @ReadsOk.cons _ _ _ _ ((rs.map Prod.fst).flatten ++ rest) _ _ _ ?_ ih1
    simp only [List.map_cons, List.flatten_cons, List.append_assoc]
    exact hp _

theorem deserializeThriftRun_fail {T Span : Type} (P : TProtocol T Span) (b : List Byte)
    {elemType : Byte} {size : Int} {t0 t1 t2 : T} {pre : List Span} {e : Err}
    (hhdr : P.ReadListBegin (P.NewTransport b) = (.ok (elemType, size), t0))
    (hpre : ReadsOk P t0 pre t1) (hk : (pre.length : Int) < size)
    (hfail : P.SpanRead t1 = (.error e, t2)) :
    deserializeThriftRun P b = (([], some e), t2) := by
  have hlt : pre.length < size.toNat := by omega
  simp only [deserializeThriftRun, hhdr]
  exact readSpans_fail P hpre hfail _ hlt []

theorem deserializeThriftRun_ok {T Span : Type} (P : TProtocol T Span) (b : List Byte)
    {elemType : Byte} {t0 t1 : T} {ss : List Span}
    (hhdr : P.ReadListBegin (P.NewTransport b) = (.ok (elemType, (ss.length : Int)), t0))
    (hss : ReadsOk P t0 ss t1) :
    deserializeThriftRun P b = ((ss, none), t1) := by
  simp only [deserializeThriftRun, hhdr, Int.toNat_ofNat]
  simpa using readSpans_all P hss []

theorem counted_readListBegin {T Span : Type} (P : TProtocol T Span) (b : List Byte)
    {r : Except Err (Byte × Int)} {t0 : T}
    (hhdr : P.ReadListBegin (P.NewTransport b) = (r, t0)) :
    (counted P).ReadListBegin ((counted P).NewTransport b) = (r, (t0, 0)) := by
  simp [counted, hhdr]

theorem counted_spanRead {T Span : Type} (P : TProtocol T Span) {t t1 : T}
    {r : Except Err Span} (h : P.SpanRead t = (r, t1)) (c : Nat) :
    (counted P).SpanRead (t, c) = (r, (t1, c + 1)) := by
  simp [counted, h]

/-! ## The binary list decoder -/

/-- C1: for a well-formed list header declaring `N` elements followed by `N`
well-formed span records, `deserializeThrift` returns no error and exactly the
`N` decoded spans, in wire order. -/
theorem deserializeThrift_wellFormed_batch {Span : Type}
    (spanRead : List Byte → Except Err Span × List Byte) (elemType : Byte)
    (rs : List (List Byte × Span)) (hN : rs.length < 2 ^ 31)
    (hrs : ∀ p ∈ rs, Encodes spanRead p.1 p.2) :
    deserializeThrift (binaryProtocol spanRead)
        (listHeader elemType rs.length ++ (rs.map Prod.fst).flatten)
      = (rs.map Prod.snd, none)
    ∧ (rs.map Prod.snd).length = rs.length := by
  refine ⟨?_, by simp⟩
  have hss := readsOk_encoded spanRead rs hrs []
  rw [List.append_nil] at hss
  have hhdr : (binaryProtocol spanRead).ReadListBegin
      ((binaryProtocol spanRead).NewTransport
        (listHeader elemType rs.length ++ (rs.map Prod.fst).flatten))
      = (.ok (elemType, (((rs.map Prod.snd).length : Nat) : Int)),
          (rs.map Prod.fst).flatten) := by
    simp only [binaryProtocol, List.length_map]
    exact binaryReadListBegin_listHeader elemType rs.length hN _
  simp only [deserializeThrift, deserializeThriftRun_ok _ _ hhdr hss]

/-- The example records `01 07` and `01 09` encode the spans 7 and 9. -/
theorem deserializeThrift_wellFormed_batch_witness :
    (∀ p ∈ [([(1 : Byte), 7], 7), ([1, 9], 9)], Encodes demoSpanRead p.1 p.2)
    ∧ deserializeThrift (binaryProtocol demoSpanRead) (listHeader 12 2 ++ [1, 7, 1, 9])
      = ([7, 9], none) :=
  have h : ∀ p ∈ [([(1 : Byte), 7], 7), ([1, 9], 9)], Encodes demoSpanRead p.1 p.2 := by
    intro p hp
    simp only [List.mem_cons, List.mem_singleton, List.not_mem_nil, or_false] at hp
    rcases hp with rfl | rfl <;> intro rest <;> rfl
  ⟨h, (deserializeThrift_wellFormed_batch demoSpanRead 12 _ (by decide) h).1⟩

/-- C2: when the list header is read with declared count `size` and, after
`pre.length < size` successful record reads, the next read fails with `e`, then
`deserializeThrift` returns the nil batch with exactly `e`; the transport is
left as that failing read left it and the record reader has been invoked
`pre.length + 1` times, so nothing is read after the failing record. -/
theorem deserializeThrift_first_failure {T Span : Type} (P : TProtocol T Span)
    (b : List Byte) (elemType : Byte) (size : Int) (t0 t1 t2 : T) (pre : List Span)
    (e : Err)
    (hhdr : P.ReadListBegin (P.NewTransport b) = (.ok (elemType, size), t0))
    (hpre : ReadsOk P t0 pre t1) (hk : (pre.length : Int) < size)
    (hfail : P.SpanRead t1 = (.error e, t2)) :
    deserializeThrift P b = ([], some e)
    ∧ (deserializeThriftRun P b).2 = t2
    ∧ (deserializeThriftRun (counted P) b).2.2 = pre.length + 1 := by
  have h1 := deserializeThriftRun_fail P b hhdr hpre hk hfail
  have h2 := deserializeThriftRun_fail (counted P) b (counted_readListBegin P b hhdr)
    (readsOk_counted P hpre 0) hk (counted_spanRead P hfail _)
  simp [deserializeThrift, h1, h2]

/-- Header declaring three records, a good record, then a bad one: the error
of the second read is returned with a nil batch after two reads. -/
theorem deserializeThrift_first_failure_witness :
    deserializeThrift (binaryProtocol demoSpanRead) (listHeader 12 3 ++ [1, 7, 2, 9, 1, 5])
      = ([], some "bad record")
    ∧ (deserializeThriftRun (binaryProtocol demoSpanRead)
        (listHeader 12 3 ++ [1, 7, 2, 9, 1, 5])).2 = [9, 1, 5]
    ∧ (deserializeThriftRun (counted (binaryProtocol demoSpanRead))
        (listHeader 12 3 ++ [1, 7, 2, 9, 1, 5])).2.2 = 2 :=
  deserializeThrift_first_failure (binaryProtocol demoSpanRead)
    (listHeader 12 3 ++ [1, 7, 2, 9, 1, 5]) 12 3 [1, 7, 2, 9, 1, 5] [2, 9, 1, 5] [9, 1, 5]
    [7] "bad record" rfl (ReadsOk.cons rfl (ReadsOk.nil _)) (by decide) rfl

/-- C3: when the header declares `n` records but only `rs.length < n`
well-formed records follow, and the record reader fails on an exhausted
buffer, `deserializeThrift` returns that error with a nil batch (no shorter
batch), after `rs.length + 1` record reads rather than `n`. -/
theorem deserializeThrift_count_exceeds_records {Span : Type}
    (spanRead : List Byte → Except Err Span × List Byte) (elemType : Byte) (n : Nat)
    (rs : List (List Byte × Span)) (e : Err) (hn : n < 2 ^ 31) (hk : rs.length < n)
    (hrs : ∀ p ∈ rs, Encodes spanRead p.1 p.2)
    (hEOF : (spanRead []).1 = .error e) :
    deserializeThrift (binaryProtocol spanRead)
        (listHeader elemType n ++ (rs.map Prod.fst).flatten) = ([], some e)
    ∧ (deserializeThriftRun (counted (binaryProtocol spanRead))
        (listHeader elemType n ++ (rs.map Prod.fst).flatten)).2.2 = rs.length + 1 := by
  have hss := readsOk_encoded spanRead rs hrs []
  rw [List.append_nil] at hss
  have hhdr : (binaryProtocol spanRead).ReadListBegin
      ((binaryProtocol spanRead).NewTransport
        (listHeader elemType n ++ (rs.map Prod.fst).flatten))
      = (.ok (elemType, (n : Int)), (rs.map Prod.fst).flatten) :=
    binaryReadListBegin_listHeader elemType n hn _
  have hfail : (binaryProtocol spanRead).SpanRead []
      = (.error e, (spanRead []).2) := by
    show spanRead [] = _
    rw [← hEOF]
  have hlen : (((rs.map Prod.snd).length : Nat) : Int) < (n : Int) := by
    simp only [List.length_map]; omega
  have h1 := deserializeThriftRun_fail (binaryProtocol spanRead) _ hhdr hss hlen hfail
  have h2 := deserializeThriftRun_fail (counted (binaryProtocol spanRead)) _
    (counted_readListBegin _ _ hhdr) (readsOk_counted _ hss 0) hlen
    (counted_spanRead _ hfail _)
  refine ⟨by simp only [deserializeThrift, h1], ?_⟩
  rw [h2]
  simp

/-- Header declaring three records followed by a single one: `EOF` after two reads. -/
theorem deserializeThrift_count_exceeds_records_witness :
    deserializeThrift (binaryProtocol demoSpanRead) (listHeader 12 3 ++ [1, 7])
      = ([], some "EOF")
    ∧ (deserializeThriftRun (counted (binaryProtocol demoSpanRead))
        (listHeader 12 3 ++ [1, 7])).2.2 = 2 :=
  deserializeThrift_count_exceeds_records demoSpanRead 12 3 [([1, 7], 7)] "EOF"
    (by decide) (by decide)
    (by
      intro p hp
      simp only [List.mem_singleton] at hp
      subst hp
      intro rest
      rfl)
    rfl

/-- C8 (as stated) fails: on the empty byte sequence the header read fails
and `deserializeThrift` returns the error `EOF`, not an empty batch without error. -/
theorem deserializeThrift_empty_input_is_error :
    deserializeThrift (binaryProtocol demoSpanRead) [] = ([], some "EOF")
    ∧ ¬ (deserializeThrift (binaryProtocol demoSpanRead) [] = ([], none)) := by
  decide

/-- C8 (amended): on the empty byte sequence `deserializeThrift` returns the
header read error `EOF` with a nil batch; on a well-formed list header
declaring count 0, whatever follows, it returns an empty batch and no error. -/
theorem deserializeThrift_empty_and_zero_count {Span : Type}
    (spanRead : List Byte → Except Err Span × List Byte) :
    deserializeThrift (binaryProtocol spanRead) [] = ([], some "EOF")
    ∧ ∀ (elemType : Byte) (rest : List Byte),
        deserializeThrift (binaryProtocol spanRead) (listHeader elemType 0 ++ rest)
          = ([], none) := by
  refine ⟨rfl, ?_⟩
  intro elemType rest
  have hhdr := binaryReadListBegin_listHeader elemType 0 (by norm_num) rest
  simp only [deserializeThrift, deserializeThriftRun, binaryProtocol]
  rw [hhdr]
  rfl

/-! ## Lemmas on the handler -/

theorem saveSpans_of_bodyReadsTo {T Span : Type} (env : Env T Span) (r : Request)
    (b : List Byte) (hbody : BodyReadsTo env r b) :
    saveSpans env r = decodeAndSubmit env r b := by
  unfold BodyReadsTo at hbody
  unfold saveSpans
  split_ifs at hbody ⊢ with hgz
  · obtain ⟨gz, hnew, hread⟩ := hbody
    simp only [hnew, readAndDecode, hread]
  · simp only [readAndDecode, hbody]

theorem bodyReadsTo_plain {T Span : Type} (env : Env T Span) (r : Request) (b : List Byte)
    (hce : stringsContains (r.Header "Content-Encoding") "gzip" = false)
    (hread : ReadAll r.Body = (b, none)) : BodyReadsTo env r b := by
  simp [BodyReadsTo, hce, hread]

theorem bodyReadsTo_gzip {T Span : Type} (env : Env T Span) (r : Request) (b : List Byte)
    (gz : Reader) (hce : stringsContains (r.Header "Content-Encoding") "gzip" = true)
    (hnew : env.gzipNewReader r.Body = .ok gz) (hread : ReadAll gz = (b, none)) :
    BodyReadsTo env r b := by
  simp only [BodyReadsTo, hce, if_true]
  exact ⟨gz, hnew, hread⟩

theorem not_readAllFails_plain {T Span : Type} (env : Env T Span) (r : Request)
    (hce : stringsContains (r.Header "Content-Encoding") "gzip" = false)
    (hread : (ReadAll r.Body).2 = none) : ¬ ReadAllFails env r := by
  simp [ReadAllFails, hce, hread]

theorem decoded_zero_count_header {Span : Type} (env : Env (List Byte) Span) (r : Request)
    (spanRead : List Byte → Except Err Span × List Byte) (elemType : Byte)
    (rest : List Byte) (hproto : env.proto = binaryProtocol spanRead)
    (hct : r.Header "Content-Type" = "application/x-thrift") :
    Decoded env r (listHeader elemType 0 ++ rest) ([], none) := by
  refine Or.inl ⟨hct, ?_⟩
  have hhdr := binaryReadListBegin_listHeader elemType 0 (by norm_num) rest
  simp only [hproto, deserializeThrift, deserializeThriftRun, binaryProtocol]
  rw [hhdr]
  rfl

theorem decodeAndSubmit_of_decoded {T Span : Type} (env : Env T Span) (r : Request)
    (b : List Byte) (res : List Span × Option Err) (hdec : Decoded env r b res) :
    ∃ ev : Event Span, ev.isSubmit = false
      ∧ decodeAndSubmit env r b = submitSpans env [ev] res := by
  rcases hdec with ⟨hct, hres⟩ | ⟨hct, hres⟩
  · exact ⟨.deserializeThrift b, rfl, by simp [decodeAndSubmit, hct, hres]⟩
  · refine ⟨.DeserializeJSON b, rfl, ?_⟩
    have hne : ¬ ("application/json" = "application/x-thrift") := by decide
    simp [decodeAndSubmit, hct, hres, hne]

theorem decodeAndSubmit_unsupported {T Span : Type} (env : Env T Span) (r : Request)
    (b : List Byte) (h1 : r.Header "Content-Type" ≠ "application/x-thrift")
    (h2 : r.Header "Content-Type" ≠ "application/json") :
    decodeAndSubmit env r b = (httpError "Unsupported Content-Type" StatusBadRequest, []) := by
  simp [decodeAndSubmit, h1, h2]

/-! ## The handler -/

set_option maxRecDepth 100000

/-- C4: when the body is read successfully and the selected decoder returns an
empty batch and no error, `saveSpans` never invokes `SubmitZipkinBatch` and
responds with status 202 and an empty body. -/
theorem saveSpans_empty_batch_accepted {T Span : Type} (env : Env T Span) (r : Request)
    (b : List Byte) (hbody : BodyReadsTo env r b) (hdec : Decoded env r b ([], none)) :
    (saveSpans env r).1 = { status := 202, body := "" }
    ∧ ∀ ev ∈ (saveSpans env r).2, ev.isSubmit = false := by
  obtain ⟨ev, hev, hrun⟩ := decodeAndSubmit_of_decoded env r b _ hdec
  rw [saveSpans_of_bodyReadsTo env r b hbody, hrun]
  simp [submitSpans, StatusAccepted, hev]

/-- A binary list header declaring count 0, sent as `application/x-thrift`:
status 202 and no downstream call. -/
theorem saveSpans_empty_batch_accepted_witness :
    (saveSpans demoEnv (mkRequest "" "application/x-thrift"
        { data := listHeader 12 0, err := none })).1 = { status := 202, body := "" }
    ∧ ∀ ev ∈ (saveSpans demoEnv (mkRequest "" "application/x-thrift"
        { data := listHeader 12 0, err := none })).2, ev.isSubmit = false :=
  saveSpans_empty_batch_accepted demoEnv
    (mkRequest "" "application/x-thrift" { data := listHeader 12 0, err := none })
    (listHeader 12 0) (bodyReadsTo_plain _ _ _ (by decide) (by decide))
    (decoded_zero_count_header demoEnv _ demoSpanRead 12 [] rfl rfl)

/-- C6: when the body is read successfully and the selected decoder returns a
non-empty batch and no error, `SubmitZipkinBatch` is invoked exactly once, with
that batch; if it returns an error `e` the response is 500 with body
`Cannot submit Zipkin batch: e`, otherwise the status is 202. -/
theorem saveSpans_submits_nonempty_batch {T Span : Type} (env : Env T Span) (r : Request)
    (b : List Byte) (spans : List Span) (hbody : BodyReadsTo env r b)
    (hdec : Decoded env r b (spans, none)) (hne : spans ≠ []) :
    (saveSpans env r).2.filter Event.isSubmit = [.SubmitZipkinBatch spans]
    ∧ (∀ e, env.SubmitZipkinBatch spans = some e →
        (saveSpans env r).1
          = { status := 500, body := "Cannot submit Zipkin batch: " ++ e ++ "\n" })
    ∧ (env.SubmitZipkinBatch spans = none → (saveSpans env r).1.status = 202) := by
  obtain ⟨ev, hev, hrun⟩ := decodeAndSubmit_of_decoded env r b _ hdec
  rw [saveSpans_of_bodyReadsTo env r b hbody, hrun]
  have hlen : spans.length > 0 := List.length_pos.mpr hne
  refine ⟨?_, ?_, ?_⟩
  · have hsubmit : (Event.SubmitZipkinBatch spans).isSubmit = true := rfl
    cases hsub : env.SubmitZipkinBatch spans <;>
      simp [submitSpans, hlen, hsub, List.filter_cons, hev, hsubmit]
  · intro e he
    simp [submitSpans, hlen, he, httpError, StatusInternalServerError]
  · intro he
    simp [submitSpans, hlen, he, StatusAccepted]

/-- A batch of three spans is refused downstream (`queue full`): one call, status 500. -/
theorem saveSpans_submits_nonempty_batch_witness :
    (saveSpans demoEnv (mkRequest "" "application/x-thrift"
        { data := listHeader 12 3 ++ [1, 7, 1, 8, 1, 9], err := none })).2.filter
          Event.isSubmit = [.SubmitZipkinBatch [7, 8, 9]]
    ∧ (saveSpans demoEnv (mkRequest "" "application/x-thrift"
        { data := listHeader 12 3 ++ [1, 7, 1, 8, 1, 9], err := none })).1
      = { status := 500, body := "Cannot submit Zipkin batch: queue full\n" } :=
  have h := saveSpans_submits_nonempty_batch demoEnv
    (mkRequest "" "application/x-thrift"
      { data := listHeader 12 3 ++ [1, 7, 1, 8, 1, 9], err := none })
    (listHeader 12 3 ++ [1, 7, 1, 8, 1, 9]) [7, 8, 9]
    (bodyReadsTo_plain _ _ _ (by decide) (by decide))
    (Or.inl ⟨by decide, by decide⟩) (by decide)
  ⟨h.1, h.2.1 "queue full" rfl⟩

/-- C7: when the body is read successfully, the `Content-Type` is recognized
and the selected decoder returns an error, `saveSpans` responds with status 400
and never invokes `SubmitZipkinBatch`, whatever spans the decoder returned
next to the error. -/
theorem saveSpans_decode_error_rejected {T Span : Type} (env : Env T Span) (r : Request)
    (b : List Byte) (spans : List Span) (e : Err) (hbody : BodyReadsTo env r b)
    (hdec : Decoded env r b (spans, some e)) :
    (saveSpans env r).1.status = 400
    ∧ ∀ ev ∈ (saveSpans env r).2, ev.isSubmit = false := by
  obtain ⟨ev, hev, hrun⟩ := decodeAndSubmit_of_decoded env r b _ hdec
  rw [saveSpans_of_bodyReadsTo env r b hbody, hrun]
  simp [submitSpans, httpError, StatusBadRequest, hev]

/-- A JSON body the decoder rejects: status 400, nothing forwarded. -/
theorem saveSpans_decode_error_rejected_witness :
    (saveSpans demoEnv (mkRequest "" "application/json"
        { data := [91, 123, 125, 93], err := none })).1.status = 400
    ∧ ∀ ev ∈ (saveSpans demoEnv (mkRequest "" "application/json"
        { data := [91, 123, 125, 93], err := none })).2, ev.isSubmit = false :=
  saveSpans_decode_error_rejected demoEnv
    (mkRequest "" "application/json" { data := [91, 123, 125, 93], err := none })
    [91, 123, 125, 93] [] "invalid JSON" (bodyReadsTo_plain _ _ _ (by decide) (by decide))
    (Or.inr ⟨by decide, by decide⟩)

/-- C5 (as stated) fails: with an unsupported `Content-Type` the status is 500,
not 400, when reading the body fails: a gzip stream that ends right after its
member header, or a body whose read reports an I/O error. -/
theorem saveSpans_unsupported_type_can_be_500 :
    (saveSpans demoEnv (mkRequest "gzip" "text/plain"
        { data := [0x1f, 0x8b, 8, 0, 0, 0, 0, 0, 0, 0xff], err := none })).1.status = 500
    ∧ (saveSpans demoEnv (mkRequest "" "text/plain"
        { data := [], err := some "connection reset by peer" })).1.status = 500 := by
  decide

/-- C5 (amended): for a `Content-Type` other than `application/x-thrift` and
`application/json`, `saveSpans` invokes neither decoder nor `SubmitZipkinBatch`;
the status is 500 when `ioutil.ReadAll` of the body fails and 400 otherwise. -/
theorem saveSpans_unsupported_content_type {T Span : Type} (env : Env T Span) (r : Request)
    (h1 : r.Header "Content-Type" ≠ "application/x-thrift")
    (h2 : r.Header "Content-Type" ≠ "application/json") :
    (saveSpans env r).2 = []
    ∧ (ReadAllFails env r → (saveSpans env r).1.status = 500)
    ∧ (¬ ReadAllFails env r → (saveSpans env r).1.status = 400) := by
  unfold ReadAllFails saveSpans
  by_cases hgz : stringsContains (r.Header "Content-Encoding") "gzip" = true
  · simp only [hgz, if_true]
    cases hnew : env.gzipNewReader r.Body with
    | error e => simp [httpError, StatusBadRequest]
    | ok gz =>
      rcases hread : ReadAll gz with ⟨b, _ | e⟩
      · simp [readAndDecode, hread, decodeAndSubmit_unsupported env r b h1 h2, httpError,
          StatusBadRequest]
      · simp [readAndDecode, hread, httpError, StatusInternalServerError]
  · simp only [hgz, Bool.false_eq_true, if_false]
    rcases hread : ReadAll r.Body with ⟨b, _ | e⟩
    · simp [readAndDecode, hread, decodeAndSubmit_unsupported env r b h1 h2, httpError,
        StatusBadRequest]
    · simp [readAndDecode, hread, httpError, StatusInternalServerError]

/-- A well-formed binary payload sent as `text/plain`: no call, status 400. -/
theorem saveSpans_unsupported_content_type_witness :
    (mkRequest "" "text/plain" { data := listHeader 12 1 ++ [1, 7], err := none }).Header
        "Content-Type" ≠ "application/x-thrift"
    ∧ (saveSpans demoEnv (mkRequest "" "text/plain"
        { data := listHeader 12 1 ++ [1, 7], err := none })).2 = []
    ∧ (saveSpans demoEnv (mkRequest "" "text/plain"
        { data := listHeader 12 1 ++ [1, 7], err := none })).1.status = 400 :=
  have h := saveSpans_unsupported_content_type demoEnv
    (mkRequest "" "text/plain" { data := listHeader 12 1 ++ [1, 7], err := none })
    (by decide) (by decide)
  ⟨by decide, h.1, h.2.2 (not_readAllFails_plain _ _ (by decide) rfl)⟩

/-- C9 (as stated) fails: a gzip body with a valid member header whose trailer
carries a wrong checksum is answered with 500, not 400; a body with a
defective header is answered with 400. -/
theorem saveSpans_gzip_data_defect_is_500 :
    saveSpans demoEnv (mkRequest "gzip" "application/x-thrift"
        { data := [0x1f, 0x8b, 8, 0, 0, 0, 0, 0, 0, 0xff, 1, 7, 0, 248, 255,
            12, 0, 0, 0, 1, 1, 7, 223, 123, 113, 221, 7, 0, 0, 0], err := none })
      = ({ status := 500, body := "Unable to process request body: gzip: invalid checksum\n" },
          [])
    ∧ saveSpans demoEnv (mkRequest "gzip" "application/x-thrift"
        { data := [110, 111, 116, 32, 103, 111, 111, 100, 32, 98, 111, 100, 121],
          err := none })
      = ({ status := 400, body := "Unable to process request body: gzip: invalid header\n" },
          []) := by
  decide

/-- C9 (amended): when `Content-Encoding` declares gzip, a body rejected by
`gzip.NewReader` (defect in the gzip header) is answered with 400, and a body
whose header is accepted but whose decompression fails in `ioutil.ReadAll`
(defect later in the data) is answered with 500; in both cases no decoder and
no downstream call is made. -/
theorem saveSpans_gzip_defect {T Span : Type} (env : Env T Span) (r : Request)
    (hgz : stringsContains (r.Header "Content-Encoding") "gzip" = true) :
    (∀ e, env.gzipNewReader r.Body = .error e →
        saveSpans env r
          = ({ status := 400, body := env.fmtUnableToReadBody e ++ "\n" }, []))
    ∧ (∀ gz e, env.gzipNewReader r.Body = .ok gz → (ReadAll gz).2 = some e →
        saveSpans env r
          = ({ status := 500, body := env.fmtUnableToReadBody e ++ "\n" }, [])) := by
  refine ⟨?_, ?_⟩
  · intro e he
    simp [saveSpans, hgz, he, httpError, StatusBadRequest]
  · intro gz e hnew hread
    rcases hall : ReadAll gz with ⟨b, oe⟩
    rw [hall] at hread
    simp only at hread
    subst hread
    simp [saveSpans, hgz, hnew, readAndDecode, hall, httpError, StatusInternalServerError]

/-- An empty body declared as gzip: `NewReader` reports `EOF`, status 400. -/
theorem saveSpans_gzip_defect_witness :
    stringsContains "gzip" "gzip" = true
    ∧ saveSpans demoEnv (mkRequest "gzip" "application/x-thrift" { data := [], err := none })
      = ({ status := 400, body := "Unable to process request body: EOF\n" }, []) :=
  ⟨by decide,
    (saveSpans_gzip_defect demoEnv
      (mkRequest "gzip" "application/x-thrift" { data := [], err := none })
      (by decide)).1 "EOF" rfl⟩

/-- C10: when `g` is a gzip compression of `p` (the gzip reader accepts `g` and
yields `p` without error), the request with `Content-Encoding: gzip`,
`Content-Type: application/x-thrift` and body `g` gives the same decoder call,
the same downstream call and the same response as the request without
`Content-Encoding` and with body `p`. -/
theorem saveSpans_gzip_transparent {T Span : Type} (env : Env T Span) (r1 r2 : Request)
    (g p : List Byte) (gz : Reader)
    (hce1 : r1.Header "Content-Encoding" = "gzip")
    (hct1 : r1.Header "Content-Type" = "application/x-thrift")
    (hb1 : r1.Body = { data := g, err := none })
    (hce2 : r2.Header "Content-Encoding" = "")
    (hct2 : r2.Header "Content-Type" = "application/x-thrift")
    (hb2 : r2.Body = { data := p, err := none })
    (hnew : env.gzipNewReader { data := g, err := none } = .ok gz)
    (hread : ReadAll gz = (p, none)) :
    saveSpans env r1 = saveSpans env r2
    ∧ saveSpans env r2
      = submitSpans env [.deserializeThrift p] (deserializeThrift env.proto p) := by
  have hg1 : stringsContains (r1.Header "Content-Encoding") "gzip" = true := by
    rw [hce1]; decide
  have hg2 : stringsContains (r2.Header "Content-Encoding") "gzip" = false := by
    rw [hce2]; decide
  have e1 : saveSpans env r1 = decodeAndSubmit env r1 p :=
    saveSpans_of_bodyReadsTo env r1 p
      (bodyReadsTo_gzip env r1 p gz hg1 (by rw [hb1]; exact hnew) hread)
  have e2 : saveSpans env r2 = decodeAndSubmit env r2 p :=
    saveSpans_of_bodyReadsTo env r2 p
      (bodyReadsTo_plain env r2 p hg2 (by rw [hb2]; rfl))
  rw [e1, e2]
  simp [decodeAndSubmit, hct1, hct2]

/-- The binary payload `0c 00 00 00 01 01 07` and its gzip stream (one stored
block): both requests decode to the span 7 and submit it. -/
theorem saveSpans_gzip_transparent_witness :
    saveSpans demoEnv (mkRequest "gzip" "application/x-thrift"
        { data := gzipStore (listHeader 12 1 ++ [1, 7]), err := none })
      = saveSpans demoEnv (mkRequest "" "application/x-thrift"
        { data := listHeader 12 1 ++ [1, 7], err := none })
    ∧ saveSpans demoEnv (mkRequest "" "application/x-thrift"
        { data := listHeader 12 1 ++ [1, 7], err := none })
      = submitSpans demoEnv [.deserializeThrift (listHeader 12 1 ++ [1, 7])]
          (deserializeThrift demoEnv.proto (listHeader 12 1 ++ [1, 7])) :=
  saveSpans_gzip_transparent demoEnv _ _ (gzipStore (listHeader 12 1 ++ [1, 7]))
    (listHeader 12 1 ++ [1, 7]) { data := listHeader 12 1 ++ [1, 7], err := none }
    rfl rfl rfl rfl rfl rfl rfl rfl

end Zipkin
